import Mathlib

/-!
Verification development for the Windows-MCP desktop automation service.

The definitions below are a shallow embedding of `src/windows_mcp/desktop/service.py`
and `src/windows_mcp/__main__.py`.  The operating-system / UI-automation capability
layer (win32, the `uia` bridge, `thefuzz`, PowerShell) is out of the repository's
core scope and is modelled as an explicit `Env` record of pure functions; calls
that may raise in Python are modelled with `Option` / `Except`.  Data-model classes
from `windows_mcp/desktop/views.py` and `windows_mcp/tree/views.py` are not part of
the provided sources and are modelled from the specification.
-/

/-! ## Python string primitives, modelled exactly -/

/-- Python substring-prefix test over raw character lists. -/
def startsWithL : List Char → List Char → Bool
  | [], _ => true
  | _ :: _, [] => false
  | a :: as, b :: bs => a == b && startsWithL as bs

/-- Python `needle in haystack` substring containment over character lists. -/
def hasSubL (n : List Char) : List Char → Bool
  | [] => startsWithL n []
  | l@(_ :: t) => startsWithL n l || hasSubL n t

/-- Python `needle in s` substring containment for strings (nonempty needle). -/
def pyContains (needle s : String) : Bool := hasSubL needle.data s.data

/-- Python `str.strip()` over character lists: drop leading and trailing whitespace. -/
def pyStrip (s : List Char) : List Char :=
  ((s.dropWhile Char.isWhitespace).reverse.dropWhile Char.isWhitespace).reverse

/-- Python `str.strip()` for strings. -/
def pyStripS (s : String) : String := String.mk (pyStrip s.data)

/-- Helper used by `pyTitle`: the Bool records whether the previous character was
alphabetic (cased). -/
def pyTitleGo : Bool → List Char → List Char
  | _, [] => []
  | prevAlpha, c :: t =>
    (if c.isAlpha then (if prevAlpha then c.toLower else c.toUpper) else c) ::
      pyTitleGo c.isAlpha t

/-- Python `str.title()` (ASCII behaviour): first letter of each alphabetic run
upper-cased, the rest lower-cased. -/
def pyTitle (s : String) : String := String.mk (pyTitleGo false s.data)

/-- A single-quote character as a string, used to build PowerShell commands. -/
def squote : String := String.mk [Char.ofNat 39]

/-- Python `dict(...)` key view (first-occurrence order, duplicates dropped);
the first argument accumulates the keys already seen. -/
def dedupFirstGo : List String → List String → List String
  | _, [] => []
  | seen, k :: t =>
    if k ∈ seen then dedupFirstGo seen t else k :: dedupFirstGo (k :: seen) t

/-- Keys of a Python dict built from an association list (insertion order). -/
def pyDictKeys {α : Type} (l : List (String × α)) : List String :=
  dedupFirstGo [] (l.map (fun p => p.1))

/-- Python dict lookup on an association list: the last binding wins. -/
def pyDictGet {α : Type} (l : List (String × α)) (k : String) : Option α :=
  l.foldl (fun acc p => if p.1 = k then some p.2 else acc) none

/-- Python `str.isdigit()` (ASCII): nonempty and all digits. -/
def pyIsDigitStr (s : String) : Bool := !s.data.isEmpty && s.data.all Char.isDigit

/-- Python `str.isalnum()` (ASCII): nonempty and all alphanumeric. -/
def pyIsAlnumStr (s : String) : Bool := !s.data.isEmpty && s.data.all Char.isAlphanum

/-- Python `int(...)` on a string of decimal digits. -/
def parseNat (ds : List Char) : Nat :=
  ds.foldl (fun a c => 10 * a + (c.toNat - 48)) 0

/-! ## Data model (views.py is not in the provided sources) -/

/-- Modelled from the spec: window status, one of Normal, Minimized, Maximized,
Hidden (section 3, Window attributes). -/
inductive Status where
  | normal
  | minimized
  | maximized
  | hidden
deriving DecidableEq, Repr

/-- Modelled from the spec: a bounding box with left/top/right/bottom and the
derived width/height fields (section 3). -/
structure BoundingBox where
  left : Int
  top : Int
  right : Int
  bottom : Int
  width : Int
  height : Int
deriving DecidableEq, Repr

/-- A rectangle as returned by the UI-automation layer, with derived accessors. -/
structure TRect where
  left : Int
  top : Int
  right : Int
  bottom : Int
deriving DecidableEq, Repr

def TRect.width (r : TRect) : Int := r.right - r.left

def TRect.height (r : TRect) : Int := r.bottom - r.top

/-- Modelled from the spec: the `uia` bridge (not in the provided sources) exposes
an emptiness test on bounding rectangles; the spec calls a box empty when it
encloses no area ("zero-area", sections 2 and 4.2). -/
def TRect.isempty (r : TRect) : Bool := decide (r.width ≤ 0 ∨ r.height ≤ 0)

/-- Conversion used when `get_windows` and `get_active_window` build a
`BoundingBox` from a control's `BoundingRectangle`. -/
def mkBBox (r : TRect) : BoundingBox :=
  { left := r.left, top := r.top, right := r.right, bottom := r.bottom,
    width := r.width, height := r.height }

/-- Modelled from the spec: the Window record of the data model (section 3):
display name, depth, bounding box, status, opaque handle, owning process id,
is-browser flag.  Equality is field-wise, as for the source's pydantic model. -/
structure Window where
  name : String
  depth : Nat
  bounding_box : BoundingBox
  status : Status
  handle : Nat
  process_id : Nat
  is_browser : Bool
deriving DecidableEq, Repr

/-- Modelled from the spec: a virtual-desktop descriptor with an id and a name
(section 4.5, fallback "Default Desktop" descriptor). -/
structure VDesk where
  id : String
  name : String
deriving DecidableEq, Repr

/-- Modelled from the spec: the immutable snapshot result aggregating the active
window, the other windows and the virtual-desktop descriptors (section 3).  The
screenshot and accessibility-tree fields are produced by out-of-source
components (PIL, tree/service.py) and are not part of this embedding. -/
structure DesktopState where
  active_window : Option Window
  windows : List Window
  active_desktop : VDesk
  all_desktops : List VDesk
deriving DecidableEq, Repr

/-! ## The capability environment (section 6 of the spec)

Each field models one primitive the core consumes.  `Option` on a result models
a Python call that may raise: `none` is "this call raised". -/

/-- Window pattern capability record (`GetPattern(WindowPattern)` result). -/
structure WinPattern where
  canMinimize : Bool
  canMaximize : Bool
deriving DecidableEq, Repr

/-- A resolved top-level UI-automation control, as inspected by the classifier
and the active-window resolver.  A `none` field models the corresponding
attribute access raising.  `getChildrenCount` is the length of `GetChildren()`. -/
structure UCtrl where
  className : String
  name : Option String
  getChildrenCount : Option Nat
  isWindowOrPane : Bool
  windowPattern : Option (Option WinPattern)
  boundingRectangle : TRect
  nativeWindowHandle : Nat
  processId : Nat
deriving DecidableEq, Repr

/-- The pure capability environment supplied by the platform layer. -/
structure Env where
  /-- `get_controls_handles()`: candidate top-level handles, in iteration order. -/
  controlsHandles : List Nat
  /-- `uia.ControlFromHandle`: `none` models the call raising. -/
  ctrl : Nat → Option UCtrl
  /-- the control returned by `get_foreground_window()`; `none` models a raise. -/
  foreground : Option UCtrl
  /-- `uia.IsIconic` on a native window handle. -/
  isIconic : Nat → Bool
  /-- `uia.IsZoomed` on a native window handle. -/
  isZoomed : Nat → Bool
  /-- `uia.IsWindowVisible` on a native window handle. -/
  isWindowVisible : Nat → Bool
  /-- `win32gui.IsWindow` on a handle. -/
  isWindow : Nat → Bool
  /-- `is_window_browser`'s process-name probe (total: the source catches its
  own exceptions and returns False). -/
  isBrowserProcess : Nat → Bool
  /-- `get_current_desktop()` and `get_all_desktops()`; `none` models the
  RuntimeError branch. -/
  desktops : Option (VDesk × List VDesk)
  /-- `get_apps_from_start_menu()` result (name, AppID) in insertion order. -/
  appsMap : List (String × String)
  /-- `thefuzz.process.extractOne(query, choices, score_cutoff=70)`. -/
  fuzzExtractOne70 : String → List String → Option (String × Nat)
  /-- `thefuzz.process.extract(query, choices, limit=5)`. -/
  fuzzExtract5 : String → List String → List (String × Nat)
  /-- `execute_command`: output text and return code. -/
  execCommand : String → String × Int
  /-- `os.path.exists`. -/
  pathExists : String → Bool

/-- Well-formedness of the platform layer: resolving a handle yields a control
whose `NativeWindowHandle` is that handle. -/
def wfEnv (env : Env) : Prop :=
  ∀ h c, env.ctrl h = some c → c.nativeWindowHandle = h

/-! ## Desktop.get_window_status (service.py lines 135-143) -/

def Desktop.get_window_status (env : Env) (control : UCtrl) : Status :=
  if env.isIconic control.nativeWindowHandle then Status.minimized
  else if env.isZoomed control.nativeWindowHandle then Status.maximized
  else if env.isWindowVisible control.nativeWindowHandle then Status.normal
  else Status.hidden

/-! ## Desktop.is_overlay_window (service.py lines 569-572) -/

/-- `is_overlay_window`: zero children, or the stripped name contains the
literal "Overlay".  An error models either attribute access raising. -/
def Desktop.is_overlay_window (c : UCtrl) : Except Unit Bool :=
  match c.getChildrenCount, c.name with
  | some k, some nm => .ok (k == 0 || pyContains "Overlay" (pyStripS nm))
  | _, _ => .error ()

/-! ## Desktop.get_windows (service.py lines 651-704) -/

/-- The window record appended by `get_windows` for an accepted control. -/
def mkWindow (env : Env) (c : UCtrl) (depth : Nat) (nm : String) : Window :=
  { name := nm, depth := depth,
    status := Desktop.get_window_status env c,
    bounding_box := mkBBox c.boundingRectangle,
    handle := c.nativeWindowHandle,
    process_id := c.processId,
    is_browser := env.isBrowserProcess c.processId }

/-- The loop body of `get_windows`.  The `Except` error carries the
partially-built handle set: the source's outer `except` clause resets the
window list to `[]` but returns the handle set it had accumulated. -/
def Desktop.getWindowsGo (env : Env) :
    List Nat → Nat → List Window → List Nat → Except (List Nat) (List Window × List Nat)
  | [], _, ws, whs => .ok (ws, whs)
  | hwnd :: rest, depth, ws, whs =>
    match env.ctrl hwnd with
    | none => Desktop.getWindowsGo env rest (depth + 1) ws whs
    | some child =>
      match Desktop.is_overlay_window child with
      | .error _ => .error whs
      | .ok true => Desktop.getWindowsGo env rest (depth + 1) ws whs
      | .ok false =>
        if child.isWindowOrPane then
          match child.windowPattern with
          | none => .error whs
          | some none => Desktop.getWindowsGo env rest (depth + 1) ws whs
          | some (some wp) =>
            if wp.canMinimize && wp.canMaximize then
              let status := Desktop.get_window_status env child
              if child.boundingRectangle.isempty && !(status == Status.minimized) then
                Desktop.getWindowsGo env rest (depth + 1) ws whs
              else
                match child.name with
                | none => .error whs
                | some nm =>
                  Desktop.getWindowsGo env rest (depth + 1)
                    (ws ++ [mkWindow env child depth nm])
                    (if whs.contains child.nativeWindowHandle then whs
                     else whs ++ [child.nativeWindowHandle])
            else Desktop.getWindowsGo env rest (depth + 1) ws whs
        else Desktop.getWindowsGo env rest (depth + 1) ws whs

/-- `get_windows(controls_handles)`.  A `none` / empty argument falls back to
`get_controls_handles()` (Python truthiness of the default `or`). -/
def Desktop.get_windows (env : Env) (controls_handles : Option (List Nat)) :
    List Window × List Nat :=
  let hs := match controls_handles with
    | some l => if l.isEmpty then env.controlsHandles else l
    | none => env.controlsHandles
  match Desktop.getWindowsGo env hs 0 [] [] with
  | .ok r => r
  | .error whs => ([], whs)

/-! ## Desktop.get_active_window (service.py lines 601-634) -/

def Desktop.get_active_window (env : Env) (windows : Option (List Window)) :
    Option Window :=
  let ws := match windows with
    | none => (Desktop.get_windows env none).1
    | some ws => ws
  match env.foreground with
  | none => none
  | some fg =>
    if fg.className == "Progman" then none
    else
      let h := fg.nativeWindowHandle
      match ws.find? (fun w => w.handle == h) with
      | some w => some w
      | none =>
        match fg.name with
        | none => none
        | some nm =>
          some { name := nm,
                 is_browser := env.isBrowserProcess fg.processId,
                 depth := 0,
                 bounding_box := mkBBox fg.boundingRectangle,
                 status := Desktop.get_window_status env fg,
                 handle := h,
                 process_id := fg.processId }

/-! ## Desktop.get_state (service.py lines 54-133, state-assembly core) -/

def Desktop.defaultDesktop : VDesk :=
  { id := "00000000-0000-0000-0000-000000000000", name := "Default Desktop" }

def Desktop.get_state (env : Env) : DesktopState :=
  let controls_handles := env.controlsHandles
  let wr := Desktop.get_windows env (some controls_handles)
  let windows := wr.1
  let active_window := Desktop.get_active_window env (some windows)
  let desks := match env.desktops with
    | some d => d
    | none => (Desktop.defaultDesktop, [Desktop.defaultDesktop])
  let windows2 := match active_window with
    | some aw => if windows.contains aw then windows.erase aw else windows
    | none => windows
  { active_window := active_window, windows := windows2,
    active_desktop := desks.1, all_desktops := desks.2 }

/-- The `other_windows_handles` value `get_state` hands to the tree walker
(service.py line 95): candidate handles minus the accepted window handles. -/
def Desktop.snapshot_other_handles (env : Env) : List Nat :=
  let controls_handles := env.controlsHandles
  let wr := Desktop.get_windows env (some controls_handles)
  controls_handles.filter (fun h => !(wr.2.contains h))

/-! ## Desktop.__init__ and Desktop.resize_app (service.py lines 49-52, 215-238) -/

/-- `Desktop.__init__` sets `self.desktop_state = None`. -/
def Desktop.initial_desktop_state : Option DesktopState := none

/-- `resize_app`.  `.error ()` models an uncaught Python exception: dereferencing
a `None` state (AttributeError) or `ControlFromHandle` raising. -/
def Desktop.resize_app (env : Env) (desktop_state : Option DesktopState)
    (size : Option (Int × Int)) (loc : Option (Int × Int)) :
    Except Unit (String × Int) :=
  match desktop_state with
  | none => .error ()
  | some st =>
    match st.active_window with
    | none => .ok ("No active window found", 1)
    | some aw =>
      if aw.status == Status.minimized then .ok (aw.name ++ " is minimized", 1)
      else if aw.status == Status.maximized then .ok (aw.name ++ " is maximized", 1)
      else
        match env.ctrl aw.handle with
        | none => .error ()
        | some wc =>
          let l := match loc with
            | none => (wc.boundingRectangle.left, wc.boundingRectangle.top)
            | some l => l
          let s := match size with
            | none => (wc.boundingRectangle.width, wc.boundingRectangle.height)
            | some s => s
          .ok (aw.name ++ " resized to " ++ toString s.1 ++ "x" ++ toString s.2 ++
               " at " ++ toString l.1 ++ "," ++ toString l.2 ++ ".", 0)

/-! ## Desktop.launch_app (service.py lines 288-330) -/

def Desktop.launch_app (env : Env) (name : String) : String × Int × Nat :=
  let apps_map := env.appsMap
  match env.fuzzExtractOne70 name (pyDictKeys apps_map) with
  | none =>
    let suggestions := env.fuzzExtract5 name (pyDictKeys apps_map)
    if !suggestions.isEmpty then
      (pyTitle name ++ " not found in start menu. Did you mean one of: " ++
        String.intercalate ", " (suggestions.map (fun s => s.1)) ++ "?", 1, 0)
    else (pyTitle name ++ " not found in start menu.", 1, 0)
  | some (app_name, _) =>
    match pyDictGet apps_map app_name with
    | none => (pyTitle name ++ " not found in start menu.", 1, 0)
    | some appid =>
      if env.pathExists appid || pyContains "\\" appid then
        let safe_appid := appid.replace squote (squote ++ squote)
        let r := env.execCommand
          ("Start-Process " ++ squote ++ safe_appid ++ squote ++
           " -PassThru | Select-Object -ExpandProperty Id")
        let pid := if r.2 == 0 && pyIsDigitStr (pyStripS r.1)
          then parseNat (pyStripS r.1).data else 0
        (r.1, r.2, pid)
      else
        if !(pyIsAlnumStr ((((appid.replace "\\" "").replace "_" "").replace "." ""
              |>.replace "-" "").replace "!" "")) then
          ("Invalid app identifier: " ++ appid, 1, 0)
        else
          let r := env.execCommand ("Start-Process \"shell:AppsFolder\\" ++ appid ++ "\"")
          (r.1, r.2, 0)

/-! ## Desktop.switch_app (service.py lines 332-366) -/

/-- The CPython message of the AttributeError raised when a `None` dict lookup
result is dereferenced (caught by `switch_app`'s outer handler). -/
def pyNoneAttrMsg : String :=
  squote ++ "NoneType" ++ squote ++ " object has no attribute " ++ squote ++
  "handle" ++ squote

def Desktop.switch_app (env : Env) (desktop_state : Option DesktopState)
    (name : String) : String × Int :=
  let st := match desktop_state with
    | none => Desktop.get_state env
    | some s => if s.windows.isEmpty then Desktop.get_state env else s
  let window_list :=
    (match st.active_window with | some w => [w] | none => []) ++ st.windows
  if window_list.isEmpty then ("No windows found on the desktop.", 1)
  else
    let windowsD := window_list.map (fun w => (w.name, w))
    match env.fuzzExtractOne70 name (pyDictKeys windowsD) with
    | none => ("Application " ++ pyTitle name ++ " not found.", 1)
    | some (window_name, _) =>
      match pyDictGet windowsD window_name with
      | none => ("Error switching app: " ++ pyNoneAttrMsg, 1)
      | some w =>
        if env.isIconic w.handle then
          (pyTitle window_name ++ " restored from Minimized state.", 0)
        else
          if !(env.isWindow w.handle) then
            ("Error switching app: Invalid window handle", 1)
          else
            ("Switched to " ++ pyTitle window_name ++ " window.", 0)

/-! ## state_tool scale computation (__main__.py lines 18, 104-107) -/

def MAX_IMAGE_WIDTH : ℕ := 1920

def MAX_IMAGE_HEIGHT : ℕ := 1080

/-- Modelled from the spec: the Size record returned by
`Desktop.get_screen_size` (views.py is not in the provided sources). -/
structure Size where
  width : ℕ
  height : ℕ
deriving DecidableEq, Repr

/-- The scale factor computed by `state_tool` before calling `get_state`.
Python float division is modelled over `ℚ`. -/
def state_tool_scale (screen_size : Size) : ℚ :=
  let scale_width : ℚ :=
    if screen_size.width > MAX_IMAGE_WIDTH
    then (MAX_IMAGE_WIDTH : ℚ) / (screen_size.width : ℚ) else 1
  let scale_height : ℚ :=
    if screen_size.height > MAX_IMAGE_HEIGHT
    then (MAX_IMAGE_HEIGHT : ℚ) / (screen_size.height : ℚ) else 1
  min scale_width scale_height

/-! ## The control tree and structural addresses (service.py lines 706-752)

`get_xpath_from_element` walks from a control up to the root; in this positional
embedding a control inside a tree is addressed by its list of child indices from
the root, and `GetParentControl` / `GetChildren` are the structural parent and
child lists.  `minus` in Python renders integers in decimal via `str`, which
`natStr` reproduces. -/

/-- One UI-automation control node: `ControlType` (the numeric kind),
`ControlTypeName`, `GetRuntimeId()`, `BoundingRectangle` and `GetChildren()`. -/
structure Ctrl where
  controlType : Nat
  controlTypeName : List Char
  runtimeId : List Nat
  boundingRectangle : TRect
  children : List Ctrl

/-- The control reached from `c` by following child indices `p`. -/
def Ctrl.at? : Ctrl → List Nat → Option Ctrl
  | c, [] => some c
  | c, i :: p =>
    match c.children.get? i with
    | some ch => Ctrl.at? ch p
    | none => none

/-- Decimal rendering with explicit fuel (the fuel strictly exceeds the
rendered number, so it never runs out). -/
def natStrGo : Nat → Nat → List Char
  | 0, _ => []
  | fuel + 1, n =>
    if n < 10 then [Char.ofNat (48 + n)]
    else natStrGo fuel (n / 10) ++ [Char.ofNat (48 + n % 10)]

/-- Decimal rendering of a natural number, as Python `str(n)`. -/
def natStr (n : Nat) : List Char := natStrGo (n + 1) n

/-- Python `"sep".join(parts)` over character lists. -/
def joinWith (sep : Char) : List (List Char) → List Char
  | [] => []
  | [p] => p
  | p :: ps => p ++ sep :: joinWith sep ps

/-- The string `"-".join(map(str, control.GetRuntimeId()))` used to identify a
control among its same-type siblings. -/
def ridStr (l : List Nat) : List Char := joinWith '-' (l.map natStr)

/-- Python `list.index(a)`: first index whose element equals `a` (`none` models
the ValueError). -/
def pyIndex {β : Type} [BEq β] (a : β) : List β → Option Nat
  | [] => none
  | b :: t => if a == b then some 0 else (pyIndex a t).map (fun i => i + 1)

/-- The per-level path components below the root collected by
`get_xpath_from_element`'s while loop (in root-to-element order, i.e. after the
source's final `reverse`); the root's own component is added by the caller. -/
def Desktop.xpathBelow : Ctrl → List Nat → Option (List (List Char))
  | _, [] => some []
  | c, i :: p =>
    match c.children.get? i with
    | none => none
    | some child =>
      let same_type_children :=
        (c.children.filter (fun x => x.controlType == child.controlType)).map
          (fun x => ridStr x.runtimeId)
      match pyIndex (ridStr child.runtimeId) same_type_children with
      | none => none
      | some idx =>
        let part :=
          if same_type_children.isEmpty then child.controlTypeName
          else child.controlTypeName ++ ('[' :: natStr (idx + 1)) ++ [']']
        match Desktop.xpathBelow child p with
        | none => none
        | some rest => some (part :: rest)

/-- `get_xpath_from_element` for the element of `root` addressed by `p`. -/
def Desktop.get_xpath_from_element (root : Ctrl) (p : List Nat) :
    Option (List Char) :=
  match Desktop.xpathBelow root p with
  | none => none
  | some parts => some (joinWith '/' (root.controlTypeName :: parts))

/-- Python `s.split(sep)` for a one-character separator. -/
def pySplit (sep : Char) : List Char → List (List Char)
  | [] => [[]]
  | c :: cs =>
    if c = sep then [] :: pySplit sep cs
    else
      match pySplit sep cs with
      | [] => [[c]]
      | p :: ps => (c :: p) :: ps

/-- A regex `\w` word character (ASCII). -/
def isWordChar (c : Char) : Bool := c.isAlphanum || c == '_'

/-- Matches the tail of `(\w+)(?:\[(\d+)\])?` after the opening bracket: a
nonempty-or-empty run of digits closed by `]` ending the string. -/
def digitsThenBracket : List Char → Option (List Char)
  | [] => none
  | c :: rest =>
    if c == ']' then (if rest.isEmpty then some [] else none)
    else if c.isDigit then (digitsThenBracket rest).map (fun ds => c :: ds)
    else none

/-- `re.fullmatch` of the source's pattern `(\w+)(?:\[(\d+)\])?` against one
path component: the control-type name and the optional 1-based index. -/
def parsePart (s : List Char) : Option (List Char × Option Nat) :=
  let w := s.takeWhile isWordChar
  let r := s.dropWhile isWordChar
  if w.isEmpty then none
  else
    match r with
    | [] => some (w, none)
    | '[' :: t =>
      match digitsThenBracket t with
      | some ds => if ds.isEmpty then none else some (w, some (parseNat ds))
      | none => none
    | _ => none

/-- The resolution loop of `get_element_from_xpath` over the components after
the root.  A non-matching component is skipped (`continue`); a missing child
index is an uncaught IndexError, modelled as `none`.  A parsed index of `0` is
falsy in Python, so it selects the first same-type child. -/
def Desktop.xres : Ctrl → List (List Char) → Option Ctrl
  | e, [] => some e
  | e, part :: rest =>
    match parsePart part with
    | none => Desktop.xres e rest
    | some (control_type, idx) =>
      let same := e.children.filter (fun x => x.controlTypeName == control_type)
      match idx with
      | some i =>
        if i ≠ 0 then
          match same.get? (i - 1) with
          | some ch => Desktop.xres ch rest
          | none => none
        else
          match same.get? 0 with
          | some ch => Desktop.xres ch rest
          | none => none
      | none =>
        match same.get? 0 with
        | some ch => Desktop.xres ch rest
        | none => none

/-- `get_element_from_xpath(xpath)`, resolving against the tree rooted at
`root` (the source resolves against `uia.GetRootControl()`). -/
def Desktop.get_element_from_xpath (root : Ctrl) (xpath : List Char) :
    Option Ctrl :=
  let parts := pySplit '/' xpath
  Desktop.xres root parts.tail

/-! ## Well-formedness of a control tree

The round-trip property needs the assumptions the platform guarantees for a
live UI-automation tree: control-type names are nonempty words, the numeric
`ControlType` and the `ControlTypeName` agree on sibling grouping, and runtime
ids distinguish siblings. -/

/-- Type-name of a control is a nonempty `\w+` word. -/
def goodNameb (nm : List Char) : Bool := !nm.isEmpty && nm.all isWordChar

/-- Among a sibling list, two controls have equal `ControlType` exactly when
they have equal `ControlTypeName`. -/
def typeConsb (cs : List Ctrl) : Bool :=
  cs.all (fun x => cs.all (fun y =>
    (x.controlType == y.controlType) == (x.controlTypeName == y.controlTypeName)))

/-- Boolean no-duplicates check. -/
def nodupB {β : Type} [BEq β] : List β → Bool
  | [] => true
  | a :: t => !(t.contains a) && nodupB t

/-- Well-formed control tree up to the given depth fuel (see section comment).
Zero fuel rejects, so `wfbF fuel t = true` bounds the depth of `t` by `fuel`. -/
def wfbF : Nat → Ctrl → Bool
  | 0, _ => false
  | fuel + 1, .mk _ nm _ _ cs =>
    goodNameb nm && typeConsb cs &&
    nodupB (cs.map (fun x => ridStr x.runtimeId)) && cs.all (wfbF fuel)

/-! ## Shared concrete objects for witnesses -/

/-- A default environment, overridden per concrete scenario. -/
def env0 : Env :=
  { controlsHandles := [], ctrl := fun _ => none, foreground := none,
    isIconic := fun _ => false, isZoomed := fun _ => false,
    isWindowVisible := fun _ => false, isWindow := fun _ => false,
    isBrowserProcess := fun _ => false, desktops := none, appsMap := [],
    fuzzExtractOne70 := fun _ _ => none, fuzzExtract5 := fun _ _ => [],
    execCommand := fun _ => ("", 1), pathExists := fun _ => false }

/-- A snapshot with no active window, used by witnesses. -/
def st0 : DesktopState :=
  { active_window := none, windows := [],
    active_desktop := Desktop.defaultDesktop, all_desktops := [Desktop.defaultDesktop] }

/-! ## C8: the snapshot tool's scale factor -/

/-- C8: for every screen size (W, H) with positive dimensions, the scale factor
computed by the snapshot tool equals min(1920/W, 1080/H) clamped to at most 1;
it is exactly 1 whenever W ≤ 1920 and H ≤ 1080, and strictly below 1 whenever
either dimension exceeds its cap. -/
theorem C8_scale_factor (w h : ℕ) (hw : 0 < w) (hh : 0 < h) :
    state_tool_scale ⟨w, h⟩ = min (min ((1920 : ℚ) / w) ((1080 : ℚ) / h)) 1 ∧
    state_tool_scale ⟨w, h⟩ ≤ 1 ∧
    (w ≤ 1920 → h ≤ 1080 → state_tool_scale ⟨w, h⟩ = 1) ∧
    ((1920 < w ∨ 1080 < h) → state_tool_scale ⟨w, h⟩ < 1) := by
  have hwq : (0 : ℚ) < (w : ℚ) := by exact_mod_cast hw
  have hhq : (0 : ℚ) < (h : ℚ) := by exact_mod_cast hh
  have ha1 : w ≤ 1920 → (1 : ℚ) ≤ 1920 / (w : ℚ) := by
    intro hle
    rw [le_div_iff₀ hwq, one_mul]
    exact_mod_cast hle
  have hb1 : h ≤ 1080 → (1 : ℚ) ≤ 1080 / (h : ℚ) := by
    intro hle
    rw [le_div_iff₀ hhq, one_mul]
    exact_mod_cast hle
  have ha2 : 1920 < w → 1920 / (w : ℚ) < 1 := by
    intro hlt
    rw [div_lt_one hwq]
    exact_mod_cast hlt
  have hb2 : 1080 < h → 1080 / (h : ℚ) < 1 := by
    intro hlt
    rw [div_lt_one hhq]
    exact_mod_cast hlt
  simp only [state_tool_scale, MAX_IMAGE_WIDTH, MAX_IMAGE_HEIGHT, Nat.cast_ofNat]
  rcases le_or_lt w 1920 with hW | hW <;> rcases le_or_lt h 1080 with hH | hH
  · rw [if_neg (by omega), if_neg (by omega)]
    have h1 : (1 : ℚ) ≤ min ((1920 : ℚ) / w) ((1080 : ℚ) / h) :=
      le_min (ha1 hW) (hb1 hH)
    refine ⟨?_, ?_, ?_, ?_⟩
    · rw [min_self, min_eq_right h1]
    · simp
    · intro _ _
      exact min_self 1
    · intro hc
      rcases hc with hc | hc <;> omega
  · rw [if_neg (by omega), if_pos (by omega)]
    have hble : (1080 : ℚ) / h ≤ 1 := le_of_lt (hb2 hH)
    have hab : (1080 : ℚ) / h ≤ (1920 : ℚ) / w := le_trans hble (ha1 hW)
    refine ⟨?_, ?_, ?_, ?_⟩
    · rw [min_eq_right hble, min_eq_right hab, min_eq_left hble]
    · exact min_le_left 1 _
    · intro _ hcon
      omega
    · intro _
      rw [min_eq_right hble]
      exact hb2 hH
  · rw [if_pos (by omega), if_neg (by omega)]
    have hale : (1920 : ℚ) / w ≤ 1 := le_of_lt (ha2 hW)
    have hab : (1920 : ℚ) / w ≤ (1080 : ℚ) / h := le_trans hale (hb1 hH)
    refine ⟨?_, ?_, ?_, ?_⟩
    · rw [min_eq_left hale, min_eq_left hab, min_eq_left hale]
    · exact min_le_right _ 1
    · intro hcon _
      omega
    · intro _
      rw [min_eq_left hale]
      exact ha2 hW
  · rw [if_pos (by omega), if_pos (by omega)]
    have hmle : min ((1920 : ℚ) / w) ((1080 : ℚ) / h) ≤ 1 :=
      le_trans (min_le_left _ _) (le_of_lt (ha2 hW))
    refine ⟨?_, ?_, ?_, ?_⟩
    · rw [min_eq_left hmle]
    · exact hmle
    · intro hcon _
      omega
    · intro _
      exact lt_of_le_of_lt (min_le_left _ _) (ha2 hW)

/-- Witness for C8 at the concrete 4K screen 3840x2160. -/
theorem C8_scale_factor_witness : state_tool_scale ⟨3840, 2160⟩ < 1 :=
  (C8_scale_factor 3840 2160 (by decide) (by decide)).2.2.2 (Or.inl (by decide))

/-! ## C10: resize_app before the first snapshot -/

/-- C10: a fresh Desktop stores no snapshot, calling resize_app in that state
raises (models the AttributeError on dereferencing None) instead of returning a
(message, status) pair, and every (message, status) outcome of resize_app
requires a non-None stored snapshot. -/
theorem C10_uninitialized_resize :
    Desktop.initial_desktop_state = none ∧
    (∀ env size loc,
      Desktop.resize_app env Desktop.initial_desktop_state size loc = .error ()) ∧
    (∀ env st size loc r,
      Desktop.resize_app env st size loc = .ok r → st.isSome) := by
  refine ⟨rfl, fun env size loc => rfl, ?_⟩
  intro env st size loc r hok
  cases st with
  | none => simp [Desktop.resize_app] at hok
  | some s => rfl

/-- Witness for C10: a snapshot with no active window yields the documented
refusal, and that outcome indeed presupposes a stored snapshot. -/
theorem C10_uninitialized_resize_witness : (some st0).isSome = true :=
  C10_uninitialized_resize.2.2 env0 (some st0) none none
    ("No active window found", 1) rfl

/-! ## Analysis of the classifier loop -/

/-- All attribute accesses `get_windows` may perform on a resolved control
succeed (no Python exception while inspecting it). -/
def inspectOk (c : UCtrl) : Prop :=
  c.getChildrenCount.isSome ∧ c.name.isSome ∧ c.windowPattern.isSome

instance (c : UCtrl) : Decidable (inspectOk c) := by
  unfold inspectOk
  infer_instance

/-- The pure acceptance test of the classifier: not an overlay, a Window/Pane
control, a window pattern supporting both minimize and maximize, and not
(empty bounds while not minimized). -/
def acceptsB (env : Env) (c : UCtrl) : Bool :=
  (match Desktop.is_overlay_window c with
   | .ok false => true
   | _ => false) &&
  c.isWindowOrPane &&
  (match c.windowPattern with
   | some (some wp) =>
     wp.canMinimize && wp.canMaximize &&
     !(c.boundingRectangle.isempty &&
       !(Desktop.get_window_status env c == Status.minimized))
   | _ => false)

/-- Lifting an existential over a list membership to a longer list. -/
theorem exists_mem_cons_of {hd : ℕ} {rest : List ℕ} {p : ℕ → Prop} :
    (∃ h ∈ rest, p h) → ∃ h ∈ hd :: rest, p h :=
  fun ⟨h, hm, hp⟩ => ⟨h, List.mem_cons_of_mem _ hm, hp⟩

/-- Every window produced by the classifier loop either was in the accumulator
or comes from some candidate handle whose control passes the acceptance test. -/
theorem goWindows_mem (env : Env) :
    ∀ (hs : List Nat) (d : Nat) (ws : List Window) (whs : List Nat)
      (ws2 : List Window) (whs2 : List Nat),
      Desktop.getWindowsGo env hs d ws whs = .ok (ws2, whs2) →
      ∀ w ∈ ws2, w ∈ ws ∨ ∃ h ∈ hs, ∃ c, env.ctrl h = some c ∧
        acceptsB env c = true ∧ w.handle = c.nativeWindowHandle := by
  intro hs
  induction hs with
  | nil =>
    intro d ws whs ws2 whs2 hgo w hw
    simp only [Desktop.getWindowsGo, Except.ok.injEq, Prod.mk.injEq] at hgo
    obtain ⟨h1, _⟩ := hgo
    subst h1
    exact Or.inl hw
  | cons hd rest ih =>
    intro d ws whs ws2 whs2 hgo w hw
    simp only [Desktop.getWindowsGo] at hgo
    split at hgo
    · exact (ih _ _ _ _ _ hgo w hw).imp id exists_mem_cons_of
    · rename_i child hc
      split at hgo
      · simp at hgo
      · exact (ih _ _ _ _ _ hgo w hw).imp id exists_mem_cons_of
      · rename_i hov
        split at hgo
        · rename_i hpane
          split at hgo
          · simp at hgo
          · exact (ih _ _ _ _ _ hgo w hw).imp id exists_mem_cons_of
          · rename_i wp hwp
            split at hgo
            · rename_i hcan
              split at hgo
              · exact (ih _ _ _ _ _ hgo w hw).imp id exists_mem_cons_of
              · rename_i hemp
                split at hgo
                · simp at hgo
                · rename_i nm hnm
                  rcases ih _ _ _ _ _ hgo w hw with hl | hex
                  · rcases List.mem_append.mp hl with hin | hone
                    · exact Or.inl hin
                    · have hw0 := List.mem_singleton.mp hone
                      subst hw0
                      refine Or.inr ⟨hd, List.mem_cons_self _ _, child, hc, ?_, rfl⟩
                      have hemp' : (child.boundingRectangle.isempty &&
                          !(Desktop.get_window_status env child == Status.minimized)) = false := by
                        revert hemp
                        cases child.boundingRectangle.isempty &&
                          !(Desktop.get_window_status env child == Status.minimized) <;> simp
                      simp only [acceptsB, hov, hpane, hwp, hcan, hemp']
                      rfl
                  · exact Or.inr (exists_mem_cons_of hex)
            · exact (ih _ _ _ _ _ hgo w hw).imp id exists_mem_cons_of
        · exact (ih _ _ _ _ _ hgo w hw).imp id exists_mem_cons_of

/-- When every resolved candidate control can be inspected without raising, the
classifier loop never aborts, extends the accumulator, and yields a window for
every accepted handle. -/
theorem goWindows_complete (env : Env) (hwf : wfEnv env) :
    ∀ (hs : List Nat) (d : Nat) (ws : List Window) (whs : List Nat),
      (∀ h ∈ hs, ∀ c, env.ctrl h = some c → inspectOk c) →
      ∃ ws2 whs2, Desktop.getWindowsGo env hs d ws whs = .ok (ws ++ ws2, whs2) ∧
        ∀ h ∈ hs, ∀ c, env.ctrl h = some c → acceptsB env c = true →
          ∃ w ∈ ws2, w.handle = h := by
  intro hs
  induction hs with
  | nil =>
    intro d ws whs _
    exact ⟨[], whs, by simp [Desktop.getWindowsGo], by simp⟩
  | cons hd rest ih =>
    intro d ws whs hins
    have hinsr : ∀ h ∈ rest, ∀ c, env.ctrl h = some c → inspectOk c :=
      fun h hm c hc => hins h (List.mem_cons_of_mem _ hm) c hc
    rcases hc : env.ctrl hd with _ | child
    · obtain ⟨ws2, whs2, hgo, hall⟩ := ih (d + 1) ws whs hinsr
      refine ⟨ws2, whs2, ?_, ?_⟩
      · simp only [Desktop.getWindowsGo, hc]
        exact hgo
      · intro h hm c hcc hacc
        rcases List.mem_cons.mp hm with rfl | hm
        · rw [hc] at hcc
          cases hcc
        · exact hall h hm c hcc hacc
    · obtain ⟨hio1, hio2, hio3⟩ := hins hd (List.mem_cons_self _ _) child hc
      obtain ⟨k, hk⟩ := Option.isSome_iff_exists.mp hio1
      obtain ⟨nm, hnm⟩ := Option.isSome_iff_exists.mp hio2
      obtain ⟨wpo, hwpat⟩ := Option.isSome_iff_exists.mp hio3
      have hov : Desktop.is_overlay_window child =
          .ok (k == 0 || pyContains "Overlay" (pyStripS nm)) := by
        simp [Desktop.is_overlay_window, hk, hnm]
      cases hbv : (k == 0 || pyContains "Overlay" (pyStripS nm)) with
      | true =>
        have hov' : Desktop.is_overlay_window child = .ok true := by rw [hov, hbv]
        obtain ⟨ws2, whs2, hgo, hall⟩ := ih (d + 1) ws whs hinsr
        refine ⟨ws2, whs2, ?_, ?_⟩
        · simp only [Desktop.getWindowsGo, hc, hov']
          exact hgo
        · intro h hm c hcc hacc
          rcases List.mem_cons.mp hm with rfl | hm
          · rw [hc] at hcc
            injection hcc with hcc
            subst hcc
            simp [acceptsB, hov'] at hacc
          · exact hall h hm c hcc hacc
      | false =>
        have hov' : Desktop.is_overlay_window child = .ok false := by rw [hov, hbv]
        by_cases hpane : child.isWindowOrPane = true
        · rcases wpo with _ | wp
          · obtain ⟨ws2, whs2, hgo, hall⟩ := ih (d + 1) ws whs hinsr
            refine ⟨ws2, whs2, ?_, ?_⟩
            · simp only [Desktop.getWindowsGo, hc, hov', hpane, if_true, hwpat]
              exact hgo
            · intro h hm c hcc hacc
              rcases List.mem_cons.mp hm with rfl | hm
              · rw [hc] at hcc
                injection hcc with hcc
                subst hcc
                simp [acceptsB, hwpat] at hacc
              · exact hall h hm c hcc hacc
          · by_cases hcan : (wp.canMinimize && wp.canMaximize) = true
            · by_cases hemp : (child.boundingRectangle.isempty &&
                  !(Desktop.get_window_status env child == Status.minimized)) = true
              · obtain ⟨ws2, whs2, hgo, hall⟩ := ih (d + 1) ws whs hinsr
                refine ⟨ws2, whs2, ?_, ?_⟩
                · simp only [Desktop.getWindowsGo, hc, hov', hpane, if_true, hwpat,
                    hcan, hemp]
                  exact hgo
                · intro h hm c hcc hacc
                  rcases List.mem_cons.mp hm with rfl | hm
                  · rw [hc] at hcc
                    injection hcc with hcc
                    subst hcc
                    simp [acceptsB, hwpat, hemp] at hacc
                  · exact hall h hm c hcc hacc
              · obtain ⟨ws2, whs2, hgo, hall⟩ :=
                  ih (d + 1) (ws ++ [mkWindow env child d nm])
                    (if whs.contains child.nativeWindowHandle then whs
                     else whs ++ [child.nativeWindowHandle]) hinsr
                refine ⟨mkWindow env child d nm :: ws2, whs2, ?_, ?_⟩
                · simp only [Desktop.getWindowsGo, hc, hov', hpane, if_true, hwpat,
                    hcan, hemp, hnm, if_false]
                  rw [show ws ++ (mkWindow env child d nm :: ws2)
                      = (ws ++ [mkWindow env child d nm]) ++ ws2 by simp]
                  exact hgo
                · intro h hm c hcc hacc
                  rcases List.mem_cons.mp hm with rfl | hm
                  · refine ⟨mkWindow env child d nm, List.mem_cons_self _ _, ?_⟩
                    exact hwf h child hc
                  · obtain ⟨w, hwmem, hwh⟩ := hall h hm c hcc hacc
                    exact ⟨w, List.mem_cons_of_mem _ hwmem, hwh⟩
            · obtain ⟨ws2, whs2, hgo, hall⟩ := ih (d + 1) ws whs hinsr
              refine ⟨ws2, whs2, ?_, ?_⟩
              · simp only [Desktop.getWindowsGo, hc, hov', hpane, if_true, hwpat, hcan,
                  if_false]
                exact hgo
              · intro h hm c hcc hacc
                rcases List.mem_cons.mp hm with rfl | hm
                · rw [hc] at hcc
                  injection hcc with hcc
                  subst hcc
                  have hmm2 : wp.canMinimize = true ∧ wp.canMaximize = true := by
                    revert hacc
                    simp [acceptsB, hov', hwpat, Bool.and_eq_true]
                    tauto
                  rw [hmm2.1, hmm2.2] at hcan
                  simp at hcan
                · exact hall h hm c hcc hacc
        · obtain ⟨ws2, whs2, hgo, hall⟩ := ih (d + 1) ws whs hinsr
          refine ⟨ws2, whs2, ?_, ?_⟩
          · simp only [Desktop.getWindowsGo, hc, hov']
            rw [if_neg hpane]
            exact hgo
          · intro h hm c hcc hacc
            rcases List.mem_cons.mp hm with rfl | hm
            · rw [hc] at hcc
              injection hcc with hcc
              subst hcc
              simp [acceptsB, hpane] at hacc
            · exact hall h hm c hcc hacc

/-- Boolean list containment agrees with membership. -/
theorem contains_true_iff {α : Type} [BEq α] [LawfulBEq α] {l : List α} {a : α} :
    l.contains a = true ↔ a ∈ l := by
  simp [List.contains, List.elem_iff]

/-- Under a well-formed environment and distinct candidate handles, the
classifier loop preserves distinctness of the produced window handles. -/
theorem goWindows_nodup (env : Env) (hwf : wfEnv env) :
    ∀ (hs : List Nat) (d : Nat) (ws : List Window) (whs : List Nat)
      (ws2 : List Window) (whs2 : List Nat),
      hs.Nodup → (∀ h ∈ hs, h ∉ whs) →
      (ws.map (fun w => w.handle)).Nodup →
      (∀ w ∈ ws, w.handle ∈ whs) →
      Desktop.getWindowsGo env hs d ws whs = .ok (ws2, whs2) →
      (ws2.map (fun w => w.handle)).Nodup := by
  intro hs
  induction hs with
  | nil =>
    intro d ws whs ws2 whs2 _ _ hwsnd _ hgo
    simp only [Desktop.getWindowsGo, Except.ok.injEq, Prod.mk.injEq] at hgo
    obtain ⟨h1, _⟩ := hgo
    subst h1
    exact hwsnd
  | cons hd rest ih =>
    intro d ws whs ws2 whs2 hnd hfresh hwsnd hsub hgo
    have hndr : rest.Nodup := (List.nodup_cons.mp hnd).2
    have hhd : hd ∉ rest := (List.nodup_cons.mp hnd).1
    have hfreshr : ∀ h ∈ rest, h ∉ whs :=
      fun h hm => hfresh h (List.mem_cons_of_mem _ hm)
    simp only [Desktop.getWindowsGo] at hgo
    split at hgo
    · exact ih _ _ _ _ _ hndr hfreshr hwsnd hsub hgo
    · rename_i child hc
      split at hgo
      · simp at hgo
      · exact ih _ _ _ _ _ hndr hfreshr hwsnd hsub hgo
      · split at hgo
        · split at hgo
          · simp at hgo
          · exact ih _ _ _ _ _ hndr hfreshr hwsnd hsub hgo
          · split at hgo
            · split at hgo
              · exact ih _ _ _ _ _ hndr hfreshr hwsnd hsub hgo
              · split at hgo
                · simp at hgo
                · rename_i nm hnm
                  have hch : child.nativeWindowHandle = hd := hwf hd child hc
                  have hdnot : hd ∉ whs := hfresh hd (List.mem_cons_self _ _)
                  have hnot : ¬ whs.contains child.nativeWindowHandle = true := by
                    rw [hch]
                    intro hcontra
                    exact hdnot (contains_true_iff.mp hcontra)
                  rw [if_neg hnot] at hgo
                  refine ih (d + 1) (ws ++ [mkWindow env child d nm])
                    (whs ++ [child.nativeWindowHandle]) _ _ hndr ?_ ?_ ?_ hgo
                  · intro h hm
                    rw [List.mem_append, List.mem_singleton, hch]
                    rintro (hin | rfl)
                    · exact hfreshr h hm hin
                    · exact hhd hm
                  · rw [List.map_append, List.map_singleton]
                    rw [List.nodup_append]
                    refine ⟨hwsnd, List.nodup_singleton _, ?_⟩
                    intro a ha hb
                    rw [List.mem_singleton] at hb
                    subst hb
                    obtain ⟨w, hwmem, hweq⟩ := List.mem_map.mp ha
                    have : (mkWindow env child d nm).handle ∈ whs := by
                      rw [← hweq]
                      exact hsub w hwmem
                    rw [show (mkWindow env child d nm).handle
                        = child.nativeWindowHandle from rfl, hch] at this
                    exact hdnot this
                  · intro w hw
                    rw [List.mem_append]
                    rcases List.mem_append.mp hw with hin | hone
                    · exact Or.inl (hsub w hin)
                    · rw [List.mem_singleton] at hone
                      subst hone
                      exact Or.inr (List.mem_singleton.mpr rfl)
            · exact ih _ _ _ _ _ hndr hfreshr hwsnd hsub hgo
        · exact ih _ _ _ _ _ hndr hfreshr hwsnd hsub hgo

/-- The window lists returned by `get_windows` on the enumerator's candidate
set have pairwise distinct handles (given a well-formed platform layer). -/
theorem get_windows_nodup (env : Env) (hwf : wfEnv env)
    (hnd : env.controlsHandles.Nodup) :
    ((Desktop.get_windows env (some env.controlsHandles)).1.map
      (fun w => w.handle)).Nodup := by
  simp only [Desktop.get_windows]
  have hife : (if env.controlsHandles.isEmpty then env.controlsHandles
      else env.controlsHandles) = env.controlsHandles := by
    split <;> rfl
  rw [hife]
  split
  · rename_i r heq
    rcases r with ⟨ws2, whs2⟩
    exact goWindows_nodup env hwf _ 0 [] [] ws2 whs2 hnd
      (by simp) (by simp) (by simp) heq
  · simp

/-- C2: in every DesktopState produced by get_state, no two entries of the
windows list share a handle, and the active window (when present) does not
also appear in the windows list. -/
theorem C2_handle_uniqueness (env : Env) (hwf : wfEnv env)
    (hnd : env.controlsHandles.Nodup) :
    ((Desktop.get_state env).windows.map (fun w => w.handle)).Nodup ∧
    ∀ w, (Desktop.get_state env).active_window = some w →
      w ∉ (Desktop.get_state env).windows := by
  have hwnd := get_windows_nodup env hwf hnd
  have hact : (Desktop.get_state env).active_window =
      Desktop.get_active_window env
        (some (Desktop.get_windows env (some env.controlsHandles)).1) := rfl
  have hwin : (Desktop.get_state env).windows =
      (match Desktop.get_active_window env
          (some (Desktop.get_windows env (some env.controlsHandles)).1) with
        | some aw =>
          if (Desktop.get_windows env (some env.controlsHandles)).1.contains aw
          then (Desktop.get_windows env (some env.controlsHandles)).1.erase aw
          else (Desktop.get_windows env (some env.controlsHandles)).1
        | none => (Desktop.get_windows env (some env.controlsHandles)).1) := rfl
  constructor
  · rw [hwin]
    split
    · split
      · exact List.Nodup.sublist
          (List.Sublist.map _ (List.erase_sublist _ _)) hwnd
      · exact hwnd
    · exact hwnd
  · intro w hw
    rw [hact] at hw
    rw [hwin]
    split
    · rename_i aw heq
      rw [hw] at heq
      injection heq with heq
      subst heq
      by_cases hmem : w ∈ (Desktop.get_windows env (some env.controlsHandles)).1
      · rw [if_pos (contains_true_iff.mpr hmem)]
        have hnodup : (Desktop.get_windows env (some env.controlsHandles)).1.Nodup :=
          List.Nodup.of_map _ hwnd
        intro hcon
        exact ((List.Nodup.mem_erase_iff hnodup).mp hcon).1 rfl
      · rw [if_neg (fun hcontra => hmem (contains_true_iff.mp hcontra))]
        exact hmem
    · rename_i heq
      rw [hw] at heq
      cases heq

/-- C5: the classifier excludes overlays, where overlay means zero child
controls or a stripped name containing the literal "Overlay"; in particular a
control with zero children never contributes a window, regardless of its name. -/
theorem C5_overlay_exclusion :
    (∀ (c : UCtrl) (b : Bool), c.getChildrenCount = some 0 →
      Desktop.is_overlay_window c = .ok b → b = true) ∧
    (∀ (c : UCtrl) (k : Nat) (nm : String), c.getChildrenCount = some k →
      c.name = some nm →
      (Desktop.is_overlay_window c = .ok true ↔
        (k = 0 ∨ pyContains "Overlay" (pyStripS nm) = true))) ∧
    (∀ (env : Env) (hs : List Nat) (h : Nat) (c : UCtrl), wfEnv env →
      h ∈ hs → env.ctrl h = some c → c.getChildrenCount = some 0 →
      ∀ w ∈ (Desktop.get_windows env (some hs)).1, w.handle ≠ h) := by
  refine ⟨?_, ?_, ?_⟩
  · intro c b h0 hov
    rcases hnm : c.name with _ | nm
    · simp [Desktop.is_overlay_window, h0, hnm] at hov
    · simp [Desktop.is_overlay_window, h0, hnm] at hov
      simp [hov]
  · intro c k nm hk hnm
    simp [Desktop.is_overlay_window, hk, hnm, Bool.or_eq_true, beq_iff_eq]
  · intro env hs h c hwf hm hc h0 w hw
    have hEmp : hs.isEmpty = false := by
      cases hs with
      | nil => exact absurd hm (List.not_mem_nil _)
      | cons a t => rfl
    simp only [Desktop.get_windows, hEmp, Bool.false_eq_true, if_false] at hw
    split at hw
    · rename_i r heq
      rcases goWindows_mem env hs 0 [] [] r.1 r.2 (by rw [heq]) w hw with
        hnil | ⟨h', hm', c', hc', hacc', hh'⟩
      · cases hnil
      · intro hwh
        have hh'eq : h' = h := by
          rw [← hwf h' c' hc', ← hh']
          exact hwh
        subst hh'eq
        rw [hc] at hc'
        injection hc' with hc'
        subst hc'
        rcases hnm : c.name with _ | nm <;>
          simp [acceptsB, Desktop.is_overlay_window, h0, hnm] at hacc'
    · simp at hw

/-- C6: a candidate passing the overlay and capability checks whose bounding
box is empty is classified if and only if its status is Minimized; and the
status is computed with priority minimized > maximized > normal > hidden. -/
theorem C6_empty_bounds (env : Env) (hs : List Nat) (h : Nat) (c : UCtrl)
    (k : Nat) (nm : String) (wp : WinPattern)
    (hwf : wfEnv env)
    (hins : ∀ h2 ∈ hs, ∀ c2, env.ctrl h2 = some c2 → inspectOk c2)
    (hm : h ∈ hs) (hc : env.ctrl h = some c)
    (hk : c.getChildrenCount = some k) (hk0 : k ≠ 0)
    (hnm : c.name = some nm)
    (hnov : pyContains "Overlay" (pyStripS nm) = false)
    (hpane : c.isWindowOrPane = true)
    (hwp : c.windowPattern = some (some wp))
    (hcmin : wp.canMinimize = true) (hcmax : wp.canMaximize = true)
    (hemp : c.boundingRectangle.isempty = true) :
    ((∃ w ∈ (Desktop.get_windows env (some hs)).1, w.handle = h) ↔
      Desktop.get_window_status env c = Status.minimized) ∧
    (env.isIconic c.nativeWindowHandle = true →
      Desktop.get_window_status env c = Status.minimized) ∧
    (env.isIconic c.nativeWindowHandle = false →
      env.isZoomed c.nativeWindowHandle = true →
      Desktop.get_window_status env c = Status.maximized) ∧
    (env.isIconic c.nativeWindowHandle = false →
      env.isZoomed c.nativeWindowHandle = false →
      env.isWindowVisible c.nativeWindowHandle = true →
      Desktop.get_window_status env c = Status.normal) ∧
    (env.isIconic c.nativeWindowHandle = false →
      env.isZoomed c.nativeWindowHandle = false →
      env.isWindowVisible c.nativeWindowHandle = false →
      Desktop.get_window_status env c = Status.hidden) := by
  have hov : Desktop.is_overlay_window c = .ok false := by
    simp [Desktop.is_overlay_window, hk, hnm, hnov, beq_iff_eq, hk0]
  have hEmp : hs.isEmpty = false := by
    cases hs with
    | nil => exact absurd hm (List.not_mem_nil _)
    | cons a t => rfl
  refine ⟨⟨?_, ?_⟩, ?_, ?_, ?_, ?_⟩
  · rintro ⟨w, hw, hwh⟩
    simp only [Desktop.get_windows, hEmp, Bool.false_eq_true, if_false] at hw
    split at hw
    · rename_i r heq
      rcases goWindows_mem env hs 0 [] [] r.1 r.2 (by rw [heq]) w hw with
        hnil | ⟨h', hm', c', hc', hacc', hh'⟩
      · cases hnil
      · have hh'eq : h' = h := by
          rw [← hwf h' c' hc', ← hh']
          exact hwh
        subst hh'eq
        rw [hc] at hc'
        injection hc' with hc'
        subst hc'
        by_cases hst : (Desktop.get_window_status env c == Status.minimized) = true
        · exact beq_iff_eq.mp hst
        · exfalso
          rw [Bool.not_eq_true] at hst
          simp [acceptsB, hov, hpane, hwp, hcmin, hcmax, hemp, hst] at hacc'
    · simp at hw
  · intro hmin
    obtain ⟨ws2, whs2, hgo, hall⟩ := goWindows_complete env hwf hs 0 [] [] hins
    have hacc : acceptsB env c = true := by
      simp [acceptsB, hov, hpane, hwp, hcmin, hcmax, hemp, hmin]
    simp only [Desktop.get_windows, hEmp, Bool.false_eq_true, if_false]
    split
    · rename_i r heq
      rw [hgo] at heq
      injection heq with heq
      subst heq
      simpa using hall h hm c hc hacc
    · rename_i e heq
      rw [hgo] at heq
      cases heq
  · intro h1
    simp [Desktop.get_window_status, h1]
  · intro h1 h2
    simp [Desktop.get_window_status, h1, h2]
  · intro h1 h2 h3
    simp [Desktop.get_window_status, h1, h2, h3]
  · intro h1 h2 h3
    simp [Desktop.get_window_status, h1, h2, h3]

/-- C4 (amended part): when resolving a handle raises, the handle is skipped
and classification continues; provided every resolved control is inspectable
without raising, each accepted handle contributes a window to the result. -/
theorem C4_amended (env : Env) (hs : List Nat) (hwf : wfEnv env)
    (hins : ∀ h ∈ hs, ∀ c, env.ctrl h = some c → inspectOk c) :
    ∀ h ∈ hs, ∀ c, env.ctrl h = some c → acceptsB env c = true →
      ∃ w ∈ (Desktop.get_windows env (some hs)).1, w.handle = h := by
  intro h hm c hc hacc
  have hEmp : hs.isEmpty = false := by
    cases hs with
    | nil => exact absurd hm (List.not_mem_nil _)
    | cons a t => rfl
  obtain ⟨ws2, whs2, hgo, hall⟩ := goWindows_complete env hwf hs 0 [] [] hins
  simp only [Desktop.get_windows, hEmp, Bool.false_eq_true, if_false]
  split
  · rename_i r heq
    rw [hgo] at heq
    injection heq with heq
    subst heq
    simpa using hall h hm c hc hacc
  · rename_i e heq
    rw [hgo] at heq
    cases heq

/-! ## Concrete scenario environments -/

/-- A normal real application window control: handle A = 1, 800x600 bounds. -/
def ctrlA : UCtrl :=
  { className := "AppWindowClass", name := some "App A", getChildrenCount := some 5,
    isWindowOrPane := true, windowPattern := some (some ⟨true, true⟩),
    boundingRectangle := ⟨0, 0, 800, 600⟩, nativeWindowHandle := 1, processId := 11 }

/-- An overlay surface with zero children: handle B = 2. -/
def ctrlB : UCtrl :=
  { className := "OverlayClass", name := some "B", getChildrenCount := some 0,
    isWindowOrPane := true, windowPattern := some (some ⟨true, true⟩),
    boundingRectangle := ⟨0, 0, 100, 100⟩, nativeWindowHandle := 2, processId := 22 }

/-- A taskbar surface (always included by the enumerator): handle C = 3.  In
this scenario its pane supports both minimize and maximize capability, so the
classifier's capability check passes. -/
def ctrlC : UCtrl :=
  { className := "Shell_TrayWnd", name := some "Taskbar", getChildrenCount := some 3,
    isWindowOrPane := true, windowPattern := some (some ⟨true, true⟩),
    boundingRectangle := ⟨0, 1040, 1920, 1080⟩, nativeWindowHandle := 3, processId := 33 }

/-- The C3 scenario environment: the enumerator yields exactly handles A, B, C. -/
def env3 : Env :=
  { env0 with
    controlsHandles := [1, 2, 3]
    ctrl := fun n =>
      if n = 1 then some ctrlA else if n = 2 then some ctrlB
      else if n = 3 then some ctrlC else none
    isWindowVisible := fun _ => true }

/-- C3: with the enumerator yielding {A (real app, 800x600), B (overlay, zero
children), C (taskbar, min/max-capable)}, the classifier returns the windows
for A and C (handles [1, 3]) and the snapshot assembler's other_handles is
exactly {B} = [2]. -/
theorem C3_scenario_classify :
    (Desktop.get_windows env3 (some [1, 2, 3])).1 =
      [mkWindow env3 ctrlA 0 "App A", mkWindow env3 ctrlC 2 "Taskbar"] ∧
    ((Desktop.get_windows env3 (some [1, 2, 3])).1.map (fun w => w.handle)) = [1, 3] ∧
    (Desktop.get_windows env3 (some [1, 2, 3])).2 = [1, 3] ∧
    Desktop.snapshot_other_handles env3 = [2] := by
  refine ⟨?_, ?_, ?_, ?_⟩ <;> rfl

/-- A control whose `GetChildren()` raises during inspection. -/
def ctrlBad : UCtrl :=
  { className := "BadWindow", name := some "Bad", getChildrenCount := none,
    isWindowOrPane := true, windowPattern := some (some ⟨true, true⟩),
    boundingRectangle := ⟨0, 0, 50, 50⟩, nativeWindowHandle := 2, processId := 22 }

/-- The C4 counterexample environment: handle 1 resolves to a good window,
inspecting handle 2 raises. -/
def env4 : Env :=
  { env0 with
    controlsHandles := [1, 2]
    ctrl := fun n =>
      if n = 1 then some ctrlA else if n = 2 then some ctrlBad else none
    isWindowVisible := fun _ => true }

/-- C4 counterexample: handle 1 alone is classified as a window, but when
handle 2's inspection raises, the whole classification returns an empty window
list (with the partially accumulated handle set), losing handle 1's accepted
window — contradicting the claim that a single bad handle is merely skipped. -/
theorem C4_counterexample :
    (Desktop.get_windows env4 (some [1])).1 = [mkWindow env4 ctrlA 0 "App A"] ∧
    (Desktop.get_windows env4 (some [1, 2])).1 = [] ∧
    (Desktop.get_windows env4 (some [1, 2])).2 = [1] :=
  ⟨rfl, rfl, rfl⟩

/-- The C4 amended-claim environment: handle 1 resolves to a good window and
resolving handle 2 raises (rather than its inspection). -/
def envW4 : Env :=
  { env0 with
    controlsHandles := [1, 2]
    ctrl := fun n => if n = 1 then some ctrlA else none
    isWindowVisible := fun _ => true }

/-- The environment of `envW4` is well-formed. -/
theorem wfEnvW4 : wfEnv envW4 := by
  intro h c hc
  simp only [envW4, env0] at hc
  split at hc
  · rename_i h1
    injection hc with hc
    subst hc
    subst h1
    rfl
  · cases hc

/-- Every control `envW4` resolves can be inspected without raising. -/
theorem insEnvW4 : ∀ h ∈ ([1, 2] : List Nat), ∀ c, envW4.ctrl h = some c →
    inspectOk c := by
  intro h _ c hc
  simp only [envW4, env0] at hc
  split at hc
  · injection hc with hc
    subst hc
    exact ⟨rfl, rfl, rfl⟩
  · cases hc

/-- Witness for the C4 amended claim: with handle 2 failing to resolve, the
returned window list still contains handle 1's accepted window. -/
theorem C4_amended_witness : (Desktop.get_windows envW4 (some [1, 2])).1 ≠ [] := by
  obtain ⟨w, hw, -⟩ :=
    C4_amended envW4 [1, 2] wfEnvW4 insEnvW4 1 (by decide) ctrlA rfl rfl
  intro hnil
  rw [hnil] at hw
  cases hw

/-- Witness for C2 at the concrete environment `envW4`. -/
theorem C2_handle_uniqueness_witness :
    ((Desktop.get_state envW4).windows.map (fun w => w.handle)).Nodup :=
  (C2_handle_uniqueness envW4 wfEnvW4 (by decide)).1

/-- Witness for C5: a zero-children control (here with the innocuous name "B")
is an overlay. -/
theorem C5_overlay_exclusion_witness :
    Desktop.is_overlay_window ctrlB = .ok true :=
  (C5_overlay_exclusion.2.1 ctrlB 0 "B" rfl rfl).mpr (Or.inl rfl)

/-- A minimized application window control with empty bounds. -/
def ctrlMin : UCtrl :=
  { className := "MinWindow", name := some "Minimized App", getChildrenCount := some 2,
    isWindowOrPane := true, windowPattern := some (some ⟨true, true⟩),
    boundingRectangle := ⟨0, 0, 0, 0⟩, nativeWindowHandle := 1, processId := 5 }

/-- The C6 witness environment: one minimized empty-bounds window. -/
def envC6 : Env :=
  { env0 with
    controlsHandles := [1]
    ctrl := fun n => if n = 1 then some ctrlMin else none
    isIconic := fun _ => true }

/-- The environment of `envC6` is well-formed. -/
theorem wfEnvC6 : wfEnv envC6 := by
  intro h c hc
  simp only [envC6, env0] at hc
  split at hc
  · rename_i h1
    injection hc with hc
    subst hc
    subst h1
    rfl
  · cases hc

/-- Every control `envC6` resolves can be inspected without raising. -/
theorem insEnvC6 : ∀ h ∈ ([1] : List Nat), ∀ c, envC6.ctrl h = some c →
    inspectOk c := by
  intro h _ c hc
  simp only [envC6, env0] at hc
  split at hc
  · injection hc with hc
    subst hc
    exact ⟨rfl, rfl, rfl⟩
  · cases hc

/-- Witness for C6: the minimized empty-bounds window is included. -/
theorem C6_empty_bounds_witness :
    (Desktop.get_windows envC6 (some [1])).1 ≠ [] := by
  obtain ⟨w, hw, -⟩ :=
    (C6_empty_bounds envC6 [1] 1 ctrlMin 2 "Minimized App" ⟨true, true⟩
      wfEnvC6 insEnvC6 (by decide) rfl rfl (by decide) rfl (by decide)
      rfl rfl rfl rfl rfl).1.mpr rfl
  intro hnil
  rw [hnil] at hw
  cases hw

/-! ## C7: the active-window resolver -/

/-- C7: get_active_window returns none for the root desktop background
(Progman) and on any exception; returns the classified list entry whose handle
matches the foreground handle; and otherwise synthesizes a minimal Window from
the raw control's name, browser flag, bounding box, status, handle and
process id. -/
theorem C7_active_window_resolution (env : Env) (ws : List Window) :
    (env.foreground = none → Desktop.get_active_window env (some ws) = none) ∧
    (∀ fg, env.foreground = some fg → fg.className = "Progman" →
      Desktop.get_active_window env (some ws) = none) ∧
    (∀ fg w, env.foreground = some fg → fg.className ≠ "Progman" →
      ws.find? (fun w' => w'.handle == fg.nativeWindowHandle) = some w →
      Desktop.get_active_window env (some ws) = some w ∧ w ∈ ws ∧
        w.handle = fg.nativeWindowHandle) ∧
    (∀ fg, env.foreground = some fg → fg.className ≠ "Progman" →
      ws.find? (fun w' => w'.handle == fg.nativeWindowHandle) = none →
      (fg.name = none → Desktop.get_active_window env (some ws) = none) ∧
      (∀ nm, fg.name = some nm →
        Desktop.get_active_window env (some ws) = some
          { name := nm
            is_browser := env.isBrowserProcess fg.processId
            depth := 0
            bounding_box := mkBBox fg.boundingRectangle
            status := Desktop.get_window_status env fg
            handle := fg.nativeWindowHandle
            process_id := fg.processId })) := by
  refine ⟨?_, ?_, ?_, ?_⟩
  · intro hfg
    simp [Desktop.get_active_window, hfg]
  · intro fg hfg hcls
    simp [Desktop.get_active_window, hfg, hcls]
  · intro fg w hfg hcls hfind
    refine ⟨?_, List.mem_of_find?_eq_some hfind, ?_⟩
    · simp [Desktop.get_active_window, hfg, beq_iff_eq, hcls, hfind]
    · have hp := List.find?_some hfind
      exact beq_iff_eq.mp hp
  · intro fg hfg hcls hfind
    constructor
    · intro hnm
      simp [Desktop.get_active_window, hfg, beq_iff_eq, hcls, hfind, hnm]
    · intro nm hnm
      simp [Desktop.get_active_window, hfg, beq_iff_eq, hcls, hfind, hnm]

/-- Witness for C7: an environment whose foreground query raises resolves to
no active window. -/
theorem C7_active_window_resolution_witness :
    Desktop.get_active_window env0 (some []) = none :=
  (C7_active_window_resolution env0 []).1 rfl

/-! ## C9: suggestions on failed fuzzy matches -/

/-- The window used in the C9 scenario. -/
def wNotepad : Window :=
  { name := "Notepad", depth := 0, bounding_box := mkBBox ⟨0, 0, 800, 600⟩,
    status := Status.normal, handle := 9, process_id := 99, is_browser := false }

/-- A stored snapshot whose window list contains only "Notepad". -/
def stC9 : DesktopState :=
  { active_window := none, windows := [wNotepad],
    active_desktop := Desktop.defaultDesktop,
    all_desktops := [Desktop.defaultDesktop] }

/-- The C9 environment: the fuzzy matcher finds no high-confidence match for
any query, but ranked suggestions do exist for every nonempty candidate list. -/
def envC9 : Env :=
  { env0 with
    appsMap := [("notepad", "Notepad.AppId")]
    fuzzExtract5 := fun _ choices => choices.map (fun c => (c, 30)) }

/-- C9 counterexample: with a failed match against the window list
["Notepad"], switch_app returns the bare "Application Xyz not found." message;
the candidate "Notepad" (which the suggestion ranker would have returned) does
not occur in the result string. -/
theorem C9_counterexample :
    Desktop.switch_app envC9 (some stC9) "Xyz" = ("Application Xyz not found.", 1) ∧
    envC9.fuzzExtract5 "Xyz" ["Notepad"] = [("Notepad", 30)] ∧
    pyContains "Notepad" "Application Xyz not found." = false :=
  ⟨rfl, rfl, rfl⟩

/-- C9 (amended): when the fuzzy match fails, launch_app reports the top-5
ranked suggestions in its result string whenever any candidates exist, while
switch_app returns a bare not-found message with no suggestions. -/
theorem C9_amended (env : Env) (name : String) (st : DesktopState) :
    (env.fuzzExtractOne70 name (pyDictKeys env.appsMap) = none →
      env.fuzzExtract5 name (pyDictKeys env.appsMap) ≠ [] →
      Desktop.launch_app env name =
        (pyTitle name ++ " not found in start menu. Did you mean one of: " ++
          String.intercalate ", "
            ((env.fuzzExtract5 name (pyDictKeys env.appsMap)).map (fun s => s.1)) ++
          "?", 1, 0)) ∧
    (st.windows ≠ [] →
      env.fuzzExtractOne70 name
        (pyDictKeys (((match st.active_window with
          | some w => [w]
          | none => []) ++ st.windows).map (fun w => (w.name, w)))) = none →
      Desktop.switch_app env (some st) name =
        ("Application " ++ pyTitle name ++ " not found.", 1)) := by
  constructor
  · intro h1 h2
    have h3 : (env.fuzzExtract5 name (pyDictKeys env.appsMap)).isEmpty = false := by
      rcases hE : env.fuzzExtract5 name (pyDictKeys env.appsMap) with _ | ⟨a, t⟩
      · exact absurd hE h2
      · rfl
    simp [Desktop.launch_app, h1, h3]
  · intro h1 h2
    have h3 : st.windows.isEmpty = false := by
      rcases hE : st.windows with _ | ⟨a, t⟩
      · exact absurd hE h1
      · rfl
    have h4 : ((match st.active_window with
        | some w => [w]
        | none => []) ++ st.windows).isEmpty = false := by
      rcases hE : st.windows with _ | ⟨a, t⟩
      · exact absurd hE h1
      · cases st.active_window <;> simp [hE]
    simp only [List.map_append] at h2
    simp [Desktop.switch_app, h3, h4, h2]

/-- Witness for the C9 amended claim: a failed launch match over the single
start-menu app "notepad" reports it as a suggestion. -/
theorem C9_amended_witness :
    Desktop.launch_app envC9 "Xyz" =
      ("Xyz not found in start menu. Did you mean one of: notepad?", 1, 0) := by
  have h := (C9_amended envC9 "Xyz" st0).1 rfl (by decide)
  rw [h]
  rfl

/-! ## C1: structural-address round trip

Supporting lemmas about decimal rendering, the component parser, splitting and
joining, and list indexing. -/

/-- Facts about ASCII digit characters. -/
theorem digitChar_facts : ∀ d, d < 10 →
    (Char.ofNat (48 + d)).toNat = 48 + d ∧ (Char.ofNat (48 + d)).isDigit = true ∧
    isWordChar (Char.ofNat (48 + d)) = true ∧ Char.ofNat (48 + d) ≠ '/' ∧
    Char.ofNat (48 + d) ≠ '[' ∧ Char.ofNat (48 + d) ≠ ']' := by decide

/-- The decimal rendering is nonempty and consists of digits. -/
theorem natStrGo_facts : ∀ (fuel n : Nat), n < fuel →
    natStrGo fuel n ≠ [] ∧ (∀ c ∈ natStrGo fuel n, c.isDigit = true) := by
  intro fuel
  induction fuel with
  | zero => intro n h; omega
  | succ fuel ih =>
    intro n h
    by_cases h10 : n < 10
    · refine ⟨by simp [natStrGo, h10], ?_⟩
      intro c hc
      simp only [natStrGo, h10, if_true, List.mem_singleton] at hc
      subst hc
      exact (digitChar_facts n h10).2.1
    · have hrec := ih (n / 10) (by omega)
      refine ⟨by simp [natStrGo, h10], ?_⟩
      intro c hc
      simp only [natStrGo, h10, if_false, List.mem_append, List.mem_singleton] at hc
      rcases hc with hc | hc
      · exact hrec.2 c hc
      · subst hc
        exact (digitChar_facts (n % 10) (by omega)).2.1

/-- Folding the digit parser over a decimal rendering recovers the number. -/
theorem natStrGo_foldl : ∀ (fuel n : Nat), n < fuel → ∀ acc,
    List.foldl (fun a c => 10 * a + (c.toNat - 48)) acc (natStrGo fuel n) =
      acc * 10 ^ (natStrGo fuel n).length + n := by
  intro fuel
  induction fuel with
  | zero => intro n h; omega
  | succ fuel ih =>
    intro n h acc
    by_cases h10 : n < 10
    · simp only [natStrGo, h10, if_true, List.foldl_cons, List.foldl_nil,
        List.length_singleton, pow_one, (digitChar_facts n h10).1]
      omega
    · rw [show natStrGo (fuel + 1) n =
          natStrGo fuel (n / 10) ++ [Char.ofNat (48 + n % 10)] from by
        simp [natStrGo, h10]]
      rw [List.foldl_append, ih (n / 10) (by omega) acc]
      simp only [List.foldl_cons, List.foldl_nil, List.length_append,
        List.length_singleton, (digitChar_facts (n % 10) (by omega)).1]
      have hmod : 10 * (n / 10) + n % 10 = n := Nat.div_add_mod n 10
      have hsub : 48 + n % 10 - 48 = n % 10 := by omega
      rw [hsub, pow_succ]
      calc 10 * (acc * 10 ^ (natStrGo fuel (n / 10)).length + n / 10) + n % 10
          = acc * (10 ^ (natStrGo fuel (n / 10)).length * 10) +
              (10 * (n / 10) + n % 10) := by ring
        _ = acc * (10 ^ (natStrGo fuel (n / 10)).length * 10) + n := by rw [hmod]

/-- Python `int(str(n)) = n`. -/
theorem parseNat_natStr (n : Nat) : parseNat (natStr n) = n := by
  have h := natStrGo_foldl (n + 1) n (Nat.lt_succ_self n) 0
  simpa [parseNat, natStr] using h

theorem natStr_ne_nil (n : Nat) : natStr n ≠ [] :=
  (natStrGo_facts (n + 1) n (Nat.lt_succ_self n)).1

theorem natStr_digits (n : Nat) : ∀ c ∈ natStr n, c.isDigit = true :=
  (natStrGo_facts (n + 1) n (Nat.lt_succ_self n)).2

/-- A digit is a word character. -/
theorem isWordChar_of_isDigit {c : Char} (h : c.isDigit = true) :
    isWordChar c = true := by
  simp [isWordChar, Char.isAlphanum, h]

/-- A digit is not a slash. -/
theorem ne_slash_of_isDigit {c : Char} (h : c.isDigit = true) : c ≠ '/' := by
  intro hEq
  subst hEq
  exact absurd h (by decide)

/-- Boolean no-duplicates agrees with `List.Nodup`. -/
theorem nodupB_iff {β : Type} [BEq β] [LawfulBEq β] :
    ∀ l : List β, nodupB l = true ↔ l.Nodup := by
  intro l
  induction l with
  | nil => simp [nodupB]
  | cons a t ih =>
    simp only [nodupB, Bool.and_eq_true, Bool.not_eq_true', List.nodup_cons, ← ih]
    constructor
    · rintro ⟨h1, h2⟩
      refine ⟨fun hm => ?_, h2⟩
      have hcc := contains_true_iff.mpr hm
      rw [hcc] at h1
      cases h1
    · rintro ⟨h1, h2⟩
      refine ⟨?_, h2⟩
      rcases hcon : t.contains a with _ | _
      · rfl
      · exact absurd (contains_true_iff.mp hcon) h1

/-- Filtering with pointwise-equal predicates gives the same list. -/
theorem filter_congr_own {α : Type} (p q : α → Bool) :
    ∀ l : List α, (∀ x ∈ l, p x = q x) → l.filter p = l.filter q := by
  intro l
  induction l with
  | nil => intro _; rfl
  | cons a t ih =>
    intro h
    have ha := h a (List.mem_cons_self _ _)
    have ht := ih (fun x hx => h x (List.mem_cons_of_mem _ hx))
    simp only [List.filter_cons, ha, ht]

/-- Extraction of the sibling type-consistency property. -/
theorem typeConsb_spec {cs : List Ctrl} (h : typeConsb cs = true) :
    ∀ x ∈ cs, ∀ y ∈ cs,
      (x.controlType == y.controlType) = (x.controlTypeName == y.controlTypeName) := by
  intro x hx y hy
  have h1 := List.all_eq_true.mp h x hx
  have h2 := List.all_eq_true.mp h1 y hy
  exact eq_of_beq h2

/-- A well-formed control has a nonempty all-word-character type name. -/
theorem wfbF_name {fuel : Nat} {c : Ctrl} (h : wfbF fuel c = true) :
    c.controlTypeName ≠ [] ∧ ∀ ch ∈ c.controlTypeName, isWordChar ch = true := by
  rcases fuel with _ | fuel
  · simp [wfbF] at h
  · rcases c with ⟨ty, nm, rid, bb, cs⟩
    simp only [wfbF, Bool.and_eq_true] at h
    obtain ⟨⟨⟨hname, _⟩, _⟩, _⟩ := h
    simp only [goodNameb, Bool.and_eq_true, Bool.not_eq_true'] at hname
    obtain ⟨h1, h2⟩ := hname
    refine ⟨?_, ?_⟩
    · intro hcon
      have hcon' : nm = [] := hcon
      rw [hcon'] at h1
      cases h1
    · exact fun ch hch => List.all_eq_true.mp h2 ch hch

/-- Python `list.index` on a mapped duplicate-free list returns the position of
the element itself. -/
theorem pyIndex_map_spec {α β : Type} [BEq β] [LawfulBEq β] (f : α → β) :
    ∀ (l : List α) (x : α), x ∈ l → (l.map f).Nodup →
    ∃ i, pyIndex (f x) (l.map f) = some i ∧ l.get? i = some x := by
  intro l
  induction l with
  | nil => intro x hx; cases hx
  | cons a t ih =>
    intro x hx hnd
    have hnd' : ¬ f a ∈ t.map f ∧ (t.map f).Nodup := by
      rw [List.map_cons, List.nodup_cons] at hnd
      exact hnd
    by_cases hfa : (f x == f a) = true
    · have hfeq : f x = f a := eq_of_beq hfa
      have hxa : x = a := by
        rcases List.mem_cons.mp hx with rfl | hxt
        · rfl
        · exact absurd (hfeq ▸ List.mem_map_of_mem f hxt) hnd'.1
      subst hxa
      exact ⟨0, by simp [pyIndex, hfa], rfl⟩
    · have hxt : x ∈ t := by
        rcases List.mem_cons.mp hx with rfl | hxt
        · exact absurd (by simp) hfa
        · exact hxt
      obtain ⟨i, hpi, hget⟩ := ih x hxt hnd'.2
      exact ⟨i + 1, by simp [pyIndex, hfa, hpi], by simpa using hget⟩

/-- `takeWhile`/`dropWhile` on a word followed by an opening bracket. -/
theorem takeWhile_bracket : ∀ (nm t : List Char),
    (∀ c ∈ nm, isWordChar c = true) →
    (nm ++ '[' :: t).takeWhile isWordChar = nm ∧
    (nm ++ '[' :: t).dropWhile isWordChar = '[' :: t := by
  intro nm
  induction nm with
  | nil =>
    intro t _
    have h2 : isWordChar '[' = false := by decide
    constructor
    · simp [List.takeWhile_cons, h2]
    · simp [List.dropWhile_cons, h2]
  | cons c cs ih =>
    intro t h1
    have hc : isWordChar c = true := h1 c (List.mem_cons_self _ _)
    have ih' := ih t (fun x hx => h1 x (List.mem_cons_of_mem _ hx))
    constructor
    · simp [List.takeWhile_cons, hc, ih'.1]
    · simp [List.dropWhile_cons, hc, ih'.2]

/-- The bracket-tail parser accepts exactly a digit run closed by `]`. -/
theorem digitsThenBracket_digits : ∀ ds : List Char,
    (∀ c ∈ ds, c.isDigit = true) → digitsThenBracket (ds ++ [']']) = some ds := by
  intro ds
  induction ds with
  | nil => intro _; rfl
  | cons c cs ih =>
    intro h
    have hc : c.isDigit = true := h c (List.mem_cons_self _ _)
    have hcne : (c == ']') = false := by
      have : c ≠ ']' := by
        intro hEq
        subst hEq
        exact absurd hc (by decide)
      exact beq_eq_false_iff_ne.mpr this
    have ih' := ih (fun x hx => h x (List.mem_cons_of_mem _ hx))
    simp [digitsThenBracket, hcne, hc, ih']

/-- Splitting a separator-free list yields the singleton. -/
theorem pySplit_no_sep (sep : Char) : ∀ l : List Char, sep ∉ l →
    pySplit sep l = [l] := by
  intro l
  induction l with
  | nil => intro _; rfl
  | cons c cs ih =>
    intro h
    have hne : ¬ (c = sep) := fun hEq => h (hEq ▸ List.mem_cons_self _ _)
    have hcs : sep ∉ cs := fun hm => h (List.mem_cons_of_mem _ hm)
    simp [pySplit, hne, ih hcs]

/-- Splitting around the first separator. -/
theorem pySplit_append (sep : Char) : ∀ (l1 l2 : List Char), sep ∉ l1 →
    pySplit sep (l1 ++ sep :: l2) = l1 :: pySplit sep l2 := by
  intro l1
  induction l1 with
  | nil =>
    intro l2 _
    simp [pySplit]
  | cons c cs ih =>
    intro l2 h
    have hne : ¬ (c = sep) := fun hEq => h (hEq ▸ List.mem_cons_self _ _)
    have hcs : sep ∉ cs := fun hm => h (List.mem_cons_of_mem _ hm)
    simp [pySplit, hne, ih l2 hcs]

/-- Splitting is the inverse of joining on slash-free components. -/
theorem pySplit_joinWith : ∀ (xs : List (List Char)) (x : List Char), '/' ∉ x →
    (∀ s ∈ xs, '/' ∉ s) → pySplit '/' (joinWith '/' (x :: xs)) = x :: xs := by
  intro xs
  induction xs with
  | nil =>
    intro x hx _
    exact pySplit_no_sep '/' x hx
  | cons y ys ih =>
    intro x hx hall
    have hstep : joinWith '/' (x :: y :: ys) = x ++ '/' :: joinWith '/' (y :: ys) := rfl
    rw [hstep, pySplit_append '/' x _ hx,
      ih y (hall y (List.mem_cons_self _ _))
        (fun s hs => hall s (List.mem_cons_of_mem _ hs))]

/-- `re.fullmatch` on a component produced by the xpath builder recovers the
control-type name and the 1-based index. -/
theorem parsePart_generated (nm : List Char) (idx : Nat)
    (h1 : nm ≠ []) (h2 : ∀ c ∈ nm, isWordChar c = true) :
    parsePart (nm ++ ('[' :: natStr (idx + 1)) ++ [']']) =
      some (nm, some (idx + 1)) := by
  have hassoc : (nm ++ ('[' :: natStr (idx + 1))) ++ [']'] =
      nm ++ '[' :: (natStr (idx + 1) ++ [']']) := by simp
  rw [hassoc]
  have htw := takeWhile_bracket nm (natStr (idx + 1) ++ [']']) h2
  have hdb := digitsThenBracket_digits (natStr (idx + 1)) (natStr_digits _)
  have hnmE : nm.isEmpty = false := by
    rcases nm with _ | ⟨a, t⟩
    · exact absurd rfl h1
    · rfl
  have hdsE : (natStr (idx + 1)).isEmpty = false := by
    rcases hN : natStr (idx + 1) with _ | ⟨a, t⟩
    · exact absurd hN (natStr_ne_nil _)
    · rfl
  simp only [parsePart, htw.1, htw.2, hnmE, Bool.false_eq_true, if_false, hdb,
    hdsE, parseNat_natStr]

/-- A generated path component contains no slash. -/
theorem slash_not_mem_part (nmc : List Char) (idx : Nat)
    (h : ∀ c ∈ nmc, isWordChar c = true) :
    '/' ∉ nmc ++ ('[' :: natStr (idx + 1)) ++ [']'] := by
  intro hmem
  rcases List.mem_append.mp hmem with hmem | hmem
  · rcases List.mem_append.mp hmem with hmem | hmem
    · exact absurd (h '/' hmem) (by decide)
    · rcases List.mem_cons.mp hmem with h1 | h1
      · exact absurd h1 (by decide)
      · exact ne_slash_of_isDigit (natStr_digits _ '/' h1) rfl
  · exact absurd (List.mem_singleton.mp hmem) (by decide)

/-- Generation and resolution of the per-level components below the root: for
a well-formed tree, the components built by the xpath builder resolve back to
the addressed control. -/
theorem xres_roundtrip : ∀ (p : List Nat) (fuel : Nat) (t e : Ctrl),
    wfbF fuel t = true → Ctrl.at? t p = some e →
    ∃ parts, Desktop.xpathBelow t p = some parts ∧
      (∀ s ∈ parts, s ≠ [] ∧ '/' ∉ s) ∧
      Desktop.xres t parts = some e := by
  intro p
  induction p with
  | nil =>
    intro fuel t e _ hat
    simp only [Ctrl.at?] at hat
    injection hat with hat
    subst hat
    exact ⟨[], rfl, by simp, rfl⟩
  | cons i p ih =>
    intro fuel t e hwf hat
    rcases fuel with _ | fuel
    · simp [wfbF] at hwf
    rcases t with ⟨ty, nm, rid, bb, cs⟩
    have hwf' := hwf
    simp only [wfbF, Bool.and_eq_true] at hwf'
    obtain ⟨⟨⟨-, hcons⟩, hrids⟩, hchildren⟩ := hwf'
    simp only [Ctrl.at?] at hat
    split at hat
    · rename_i child hget
      have hchild_mem : child ∈ cs := List.get?_mem hget
      have hwfc : wfbF fuel child = true :=
        List.all_eq_true.mp hchildren child hchild_mem
      obtain ⟨parts, hparts, hgood, hres⟩ := ih fuel child e hwfc hat
      obtain ⟨hn1, hn2⟩ := wfbF_name hwfc
      have hchild_in : child ∈ cs.filter (fun x => x.controlType == child.controlType) :=
        List.mem_filter.mpr ⟨hchild_mem, by simp⟩
      have hmapnd : ((cs.filter (fun x => x.controlType == child.controlType)).map
          (fun x => ridStr x.runtimeId)).Nodup := by
        have hnd : (cs.map (fun x => ridStr x.runtimeId)).Nodup :=
          (nodupB_iff _).mp hrids
        exact List.Nodup.sublist
          (List.Sublist.map _ (List.filter_sublist _)) hnd
      obtain ⟨idx, hpi, hgetidx⟩ := pyIndex_map_spec (fun x => ridStr x.runtimeId)
        (cs.filter (fun x => x.controlType == child.controlType)) child
        hchild_in hmapnd
      have hfne : ((cs.filter (fun x => x.controlType == child.controlType)).map
          (fun x => ridStr x.runtimeId)).isEmpty = false := by
        rcases hF : cs.filter (fun x => x.controlType == child.controlType) with _ | ⟨a, tl⟩
        · rw [hF] at hchild_in
          cases hchild_in
        · rw [hF]
          rfl
      refine ⟨(child.controlTypeName ++ ('[' :: natStr (idx + 1)) ++ [']']) :: parts,
        ?_, ?_, ?_⟩
      · simp only [Desktop.xpathBelow, hget, hpi, hparts, hfne, Bool.false_eq_true,
          if_false]
      · intro s hs
        rcases List.mem_cons.mp hs with rfl | hs
        · exact ⟨by simp, slash_not_mem_part child.controlTypeName idx hn2⟩
        · exact hgood s hs
      · have hpp := parsePart_generated child.controlTypeName idx hn1 hn2
        simp only [Desktop.xres, hpp]
        rw [if_pos (Nat.succ_ne_zero idx)]
        have hfeq : cs.filter (fun x => x.controlTypeName == child.controlTypeName) =
            cs.filter (fun x => x.controlType == child.controlType) :=
          filter_congr_own _ _ cs
            (fun x hx => (typeConsb_spec hcons x hx child hchild_mem).symm)
        simp only [Nat.add_sub_cancel]
        rw [hfeq]
        simp only [hgetidx]
        exact hres
    · exact Option.noConfusion hat

/-- C1: for every element of a well-formed control tree, building its
structural address with get_xpath_from_element and resolving it with
get_element_from_xpath yields a control with the same bounding box as the one
recorded at snapshot time. -/
theorem C1_xpath_roundtrip (fuel : Nat) (t e : Ctrl) (p : List Nat)
    (hwf : wfbF fuel t = true) (hat : Ctrl.at? t p = some e) :
    ∃ xp r, Desktop.get_xpath_from_element t p = some xp ∧
      Desktop.get_element_from_xpath t xp = some r ∧
      r.boundingRectangle = e.boundingRectangle := by
  obtain ⟨parts, hparts, hgood, hres⟩ := xres_roundtrip p fuel t e hwf hat
  obtain ⟨-, hroot2⟩ := wfbF_name hwf
  have hrootslash : '/' ∉ t.controlTypeName := by
    intro hm
    exact absurd (hroot2 '/' hm) (by decide)
  refine ⟨joinWith '/' (t.controlTypeName :: parts), e, ?_, ?_, rfl⟩
  · simp only [Desktop.get_xpath_from_element, hparts]
  · simp only [Desktop.get_element_from_xpath]
    rw [pySplit_joinWith parts t.controlTypeName hrootslash
      (fun s hs => (hgood s hs).2)]
    simp only [List.tail_cons]
    exact hres

/-- A button control, first same-type sibling in the witness tree. -/
def ctrlW1 : Ctrl :=
  { controlType := 50000, controlTypeName := "ButtonControl".data,
    runtimeId := [42, 1], boundingRectangle := ⟨0, 0, 10, 10⟩, children := [] }

/-- A button control, second same-type sibling in the witness tree. -/
def ctrlW2 : Ctrl :=
  { controlType := 50000, controlTypeName := "ButtonControl".data,
    runtimeId := [42, 2], boundingRectangle := ⟨5, 5, 30, 20⟩, children := [] }

/-- The witness control tree: a pane with two button children. -/
def treeW : Ctrl :=
  { controlType := 50033, controlTypeName := "PaneControl".data, runtimeId := [7],
    boundingRectangle := ⟨0, 0, 1920, 1080⟩, children := [ctrlW1, ctrlW2] }

/-- Witness for C1 at the second button of the witness tree. -/
theorem C1_xpath_roundtrip_witness :
    ∃ xp r, Desktop.get_xpath_from_element treeW [1] = some xp ∧
      Desktop.get_element_from_xpath treeW xp = some r ∧
      r.boundingRectangle = ctrlW2.boundingRectangle :=
  C1_xpath_roundtrip 2 treeW ctrlW2 [1] (by decide) rfl
